import Mathlib

/-!
# Verification of the camera-movement detection pipeline

A shallow embedding of the `movement_detector` package (`detector.py`,
`scoring.py`, `utils.py`).  Scalar values are modelled as rationals.
The OpenCV primitives (ORB feature extraction, brute-force Hamming
matching, RANSAC homography estimation, corner detection, pyramidal
Lucas-Kanade optical flow, Canny edge maps, Gaussian blur, colour
conversion) together with the two irrational float functions used by the
scoring arithmetic (`sqrt`, `atan2`) are abstracted as an environment of
oracle functions; everything else — the per-transition orchestration,
the adaptive good-match filter, the score decompositions, the fallback
fusion, the threshold policy and the accumulation of the result — is
translated directly from the source.
-/

namespace CameraDetection

/-- A grayscale image: rows of pixel intensities. -/
abbrev Img := List (List ℚ)

/-- A colour image (BGR triples), only ever passed to the colour-conversion
oracle, mirroring the `len(frame.shape) == 3` branch of `detect`. -/
abbrev ColorImg := List (List (ℚ × ℚ × ℚ))

/-- An input frame: either already single-channel or colour. -/
inductive RawFrame where
  | gray (g : Img)
  | color (c : ColorImg)
deriving DecidableEq

/-- A 2-D point (`cv2.KeyPoint.pt` / rows of the `src_pts`/`dst_pts` arrays). -/
structure Pt where
  x : ℚ
  y : ℚ
deriving DecidableEq

/-- A keypoint as used by the detector: only its coordinate is consumed. -/
structure KeyPoint where
  pt : Pt
deriving DecidableEq

/-- A binary ORB descriptor. -/
abbrev Desc := List Bool

/-- A `cv2.DMatch`: indices into the two keypoint lists plus a distance. -/
structure DMatch where
  queryIdx : ℕ
  trainIdx : ℕ
  distance : ℚ
deriving DecidableEq

/-- A 3×3 homography matrix. -/
structure HMat where
  h00 : ℚ
  h01 : ℚ
  h02 : ℚ
  h10 : ℚ
  h11 : ℚ
  h12 : ℚ
  h20 : ℚ
  h21 : ℚ
  h22 : ℚ
deriving DecidableEq

/-- Oracle environment abstracting the OpenCV primitives and the float
functions `sqrt` and `atan2`.  `detectAndCompute` returns the keypoint list
together with an optional descriptor list (`None` when OpenCV produces no
descriptors); `calcOpticalFlowPyrLK` returns, for each input corner, its
tracked position and whether the status flag equals 1. -/
structure CVEnv where
  sqrtF : ℚ → ℚ
  atan2F : ℚ → ℚ → ℚ
  cvtColor : ColorImg → Img
  gaussianBlur : Img → Img
  detectAndCompute : Img → List KeyPoint × Option (List Desc)
  bfMatch : List Desc → List Desc → List DMatch
  findHomography : List Pt → List Pt → Option HMat
  goodFeaturesToTrack : Img → Option (List Pt)
  calcOpticalFlowPyrLK : Img → Img → List Pt → List (Pt × Bool)
  canny : Img → Img

/-! ## Numpy-style numeric helpers -/

/-- `np.mean` on a flat list (rationals; division by zero yields 0 in `ℚ`,
matching the guarded call sites which never pass an empty list). -/
def npMean (l : List ℚ) : ℚ := l.sum / l.length

/-- `np.var`: population variance, the mean of squared deviations. -/
def npVar (l : List ℚ) : ℚ := npMean (l.map fun x => (x - npMean l) ^ 2)

/-- Ascending sort of rationals (as performed internally by `np.median`). -/
def sortQ (l : List ℚ) : List ℚ := List.insertionSort (· ≤ ·) l

/-- `np.median`: middle element of the sorted list, or the average of the two
middle elements for even length. -/
def npMedian (l : List ℚ) : ℚ :=
  let s := sortQ l
  let n := s.length
  if n = 0 then 0
  else if n % 2 = 1 then s.getD (n / 2) 0
  else (s.getD (n / 2 - 1) 0 + s.getD (n / 2) 0) / 2

/-- Euclidean distance between two points, through the `sqrt` oracle
(`np.linalg.norm` of the difference row). -/
def ptDist (E : CVEnv) (p q : Pt) : ℚ :=
  E.sqrtF ((q.x - p.x) ^ 2 + (q.y - p.y) ^ 2)

/-- The per-pair displacement magnitudes
`np.linalg.norm(dst_pts.reshape(-1,2) - src_pts.reshape(-1,2), axis=1)`.
The call sites always pass lists of equal length. -/
def displacements (E : CVEnv) (src dst : List Pt) : List ℚ :=
  (src.zip dst).map fun p => ptDist E p.1 p.2

/-! ## `scoring.py` -/

/-- `calculate_movement_score` from `scoring.py`.  With a homography it
decomposes the matrix into weighted translation / rotation / scale /
perspective components plus the displacement-variance term; without one it
returns the median displacement plus a tenth of the variance (0 when either
point list is empty). -/
def calculate_movement_score (E : CVEnv) (H : Option HMat)
    (src_pts dst_pts : List Pt) : ℚ :=
  match H with
  | some h =>
    let translation_magnitude := E.sqrtF (h.h02 ^ 2 + h.h12 ^ 2)
    let rotation_magnitude := |E.atan2F h.h10 h.h00|
    let scale_x := E.sqrtF (h.h00 ^ 2 + h.h10 ^ 2)
    let scale_y := E.sqrtF (h.h01 ^ 2 + h.h11 ^ 2)
    let scale_change := |1 - (scale_x + scale_y) / 2|
    let perspective_dist := |h.h20| + |h.h21|
    let displacement_variance :=
      if 0 < src_pts.length ∧ 0 < dst_pts.length then
        let ds := displacements E src_pts dst_pts
        if 1 < ds.length then npVar ds else 0
      else 0
    translation_magnitude * 1.5 + rotation_magnitude * 30 +
      scale_change * 50 + perspective_dist * 20 +
      displacement_variance * 0.1
  | none =>
    if src_pts.length = 0 ∨ dst_pts.length = 0 then 0
    else
      let ds := displacements E src_pts dst_pts
      npMedian ds + npVar ds * 0.1

/-! ## `utils.py` -/

/-- Two images have identical 2-D shape (`cv2.absdiff` raises otherwise and
the enclosing `try/except` then returns 0.0). -/
def sameShape (a b : Img) : Prop :=
  a.length = b.length ∧ ∀ p ∈ a.zip b, p.1.length = p.2.length

instance (a b : Img) : Decidable (sameShape a b) :=
  inferInstanceAs (Decidable (a.length = b.length ∧
    ∀ p ∈ a.zip b, p.1.length = p.2.length))

/-- All rows have equal width, as a numpy 2-D array has. -/
def rectangular (a : Img) : Prop :=
  ∀ r ∈ a, r.length = (a.headD []).length

instance (a : Img) : Decidable (rectangular a) :=
  inferInstanceAs (Decidable (∀ r ∈ a, r.length = (a.headD []).length))

/-- `calculate_frame_difference_score` from `utils.py`: percentage of pixels
whose absolute difference exceeds 25 (the `cv2.threshold(..., 25, 255,
THRESH_BINARY)` mask counted by `np.sum(thresh > 0)`), plus a tenth of the
mean absolute difference.  Degenerate inputs (shape mismatch, empty image)
hit the `except` fail-safe and yield 0.0. -/
def calculate_frame_difference_score (prev_frame curr_frame : Img) : ℚ :=
  if sameShape prev_frame curr_frame ∧ rectangular prev_frame ∧
      0 < prev_frame.length ∧ 0 < (prev_frame.headD []).length then
    let diff := ((prev_frame.flatten).zip (curr_frame.flatten)).map
      fun p => |p.1 - p.2|
    let changed_pixels := (diff.filter fun v => 25 < v).length
    let total_pixels := prev_frame.length * (prev_frame.headD []).length
    let change_percentage := ((changed_pixels : ℚ) / (total_pixels : ℚ)) * 100
    let mean_diff := npMean diff
    change_percentage + mean_diff * 0.1
  else 0

/-- The corner/tracked-point pairs whose LK status flag is 1
(`corners[status == 1]` zipped with `next_corners[status == 1]`). -/
def lkGoodPairs (E : CVEnv) (prev_frame curr_frame : Img)
    (corners : List Pt) : List (Pt × Pt × Bool) :=
  ((corners.zip (E.calcOpticalFlowPyrLK prev_frame curr_frame corners)).map
      fun p => (p.1, p.2.1, p.2.2)).filter fun p => p.2.2

/-- `calculate_optical_flow_score` from `utils.py`: needs more than 10
detected corners and more than 5 successfully tracked ones, then returns
three times the median tracked displacement; otherwise 0. -/
def calculate_optical_flow_score (E : CVEnv) (prev_frame curr_frame : Img) : ℚ :=
  match E.goodFeaturesToTrack prev_frame with
  | none => 0
  | some corners =>
    if 10 < corners.length then
      let good := lkGoodPairs E prev_frame curr_frame corners
      if 5 < good.length then
        npMedian (good.map fun p => ptDist E p.1 p.2.1) * 3
      else 0
    else 0

/-- `calculate_edge_motion_score` from `utils.py`: half the mean absolute
difference of the two Canny edge maps; the shape-mismatch / empty cases hit
the `except` fail-safe and yield 0.0. -/
def calculate_edge_motion_score (E : CVEnv) (prev_frame curr_frame : Img) : ℚ :=
  let edges_prev := E.canny prev_frame
  let edges_curr := E.canny curr_frame
  if sameShape edges_prev edges_curr ∧ 0 < edges_prev.flatten.length then
    npMean (((edges_prev.flatten).zip (edges_curr.flatten)).map
      fun p => |p.1 - p.2|) * 0.5
  else 0

/-! ## `detector.py` -/

/-- The three constructor parameters of `CameraMovementDetector`. -/
structure DetectorConfig where
  threshold_feature : ℚ
  threshold_homography : ℚ
  min_match_count : ℕ
deriving DecidableEq

/-- The loop state of `detect`: the three accumulators plus the
`prev_frame` / `prev_kp` / `prev_des` triple carried across iterations
(absent before the first frame). -/
structure DState where
  movement_indices : List ℕ
  movement_scores : List ℚ
  transformation_matrices : List (Option HMat)
  prev : Option (Img × List KeyPoint × Option (List Desc))
deriving DecidableEq

/-- The state before the first loop iteration. -/
def initState : DState := ⟨[], [], [], none⟩

/-- Grayscale conversion (for colour frames) followed by the 3×3 Gaussian
blur, lines 24–28 of `detector.py`. -/
def preprocess (E : CVEnv) : RawFrame → Img
  | .gray g => E.gaussianBlur g
  | .color c => E.gaussianBlur (E.cvtColor c)

/-- `sorted(matches, key=lambda x: x.distance)`. -/
def sortMatches (l : List DMatch) : List DMatch :=
  List.insertionSort (fun a b => a.distance ≤ b.distance) l

/-- The adaptive good-match filter, lines 36–39 of `detector.py`:
`distance_threshold = min(50, matches[0].distance * 2.5)` over the sorted
match list, keeping matches strictly below it ([] when there are no
matches). -/
def goodMatchesOf (ms : List DMatch) : List DMatch :=
  match ms with
  | [] => []
  | m0 :: _ =>
    ms.filter fun m => m.distance < min 50 (m0.distance * 2.5)

/-- `np.float32([prev_kp[m.queryIdx].pt for m in good_matches])`.  The
matcher oracle is trusted to return in-range indices, as `cv2.BFMatcher`
does; out-of-range indices fall back to the origin. -/
def srcPts (prev_kp : List KeyPoint) (good : List DMatch) : List Pt :=
  good.map fun m => (prev_kp.getD m.queryIdx ⟨⟨0, 0⟩⟩).pt

/-- `np.float32([kp[m.trainIdx].pt for m in good_matches])`. -/
def dstPts (kp : List KeyPoint) (good : List DMatch) : List Pt :=
  good.map fun m => (kp.getD m.trainIdx ⟨⟨0, 0⟩⟩).pt

/-- Lines 40–51 of `detector.py`: the geometric branch.  When the good
matches reach `min_match_count`, estimate the homography and score the
transition (decomposition when a matrix came back, median + variance of
the displacements when it did not), flagging it against
`threshold_homography` (relaxed by the factor 0.5 in the degenerate case).
Returns `(movement_score, H, flaggedHere)`; `(0, None, false)` when the
good matches are insufficient. -/
def geometricScore (E : CVEnv) (C : DetectorConfig) (prev_kp : List KeyPoint)
    (kp : List KeyPoint) (good_matches : List DMatch) :
    ℚ × Option HMat × Bool :=
  if C.min_match_count ≤ good_matches.length then
    let src_pts := srcPts prev_kp good_matches
    let dst_pts := dstPts kp good_matches
    match E.findHomography src_pts dst_pts with
    | some h =>
      let s := calculate_movement_score E (some h) src_pts dst_pts
      (s, some h, decide (C.threshold_homography < s))
    | none =>
      let s := calculate_movement_score E none src_pts dst_pts
      (s, none, decide (C.threshold_homography * 0.5 < s))
  else (0, none, false)

/-- The per-transition scoring core, lines 31–62 of `detector.py`, reached
when both descriptor lists are nonempty.  Returns
`(movement_score, H, flaggedByGeometricBranch, flaggedByFallbackBranch)`:
after the geometric branch, the fallback fusion of the three signals
overwrites the score (line 52) whenever the geometric score is exactly 0
or the good matches were insufficient, flagging against
`threshold_feature`. -/
def transitionScore (E : CVEnv) (C : DetectorConfig) (prev_frame : Img)
    (prev_kp : List KeyPoint) (prev_des : List Desc) (gray : Img)
    (kp : List KeyPoint) (des : List Desc) : ℚ × Option HMat × Bool × Bool :=
  let ms := sortMatches (E.bfMatch prev_des des)
  let good_matches := goodMatchesOf ms
  let t1 := geometricScore E C prev_kp kp good_matches
  if t1.1 = 0 ∨ good_matches.length < C.min_match_count then
    let diff_score := calculate_frame_difference_score prev_frame gray
    let flow_score := calculate_optical_flow_score E prev_frame gray
    let edge_score := calculate_edge_motion_score E prev_frame gray
    let fused := max diff_score (max flow_score edge_score)
    (fused, t1.2.1, t1.2.2, decide (C.threshold_feature < fused))
  else (t1.1, t1.2.1, t1.2.2, false)

/-- One iteration of the `for idx, frame in enumerate(frames)` loop of
`detect`.  When the previous frame, its descriptors and the current
descriptors all exist and both descriptor lists are nonempty, the transition
is scored and the flagged index list extended (the geometric-branch append
of line 47/51 precedes the fallback-branch append of line 62); otherwise a
zero score and an absent matrix are recorded (only when `idx > 0`).  The
`prev` slot always rotates to the current frame. -/
def detectStep (E : CVEnv) (C : DetectorConfig) (st : DState) (idx : ℕ)
    (frame : RawFrame) : DState :=
  let gray := preprocess E frame
  let kd := E.detectAndCompute gray
  match st.prev, kd.2 with
  | some (prev_frame, prev_kp, some prev_des), some des =>
    if 0 < prev_des.length ∧ 0 < des.length then
      let r := transitionScore E C prev_frame prev_kp prev_des gray kd.1 des
      ⟨st.movement_indices ++ (if r.2.2.1 then [idx] else []) ++
          (if r.2.2.2 then [idx] else []),
        st.movement_scores ++ [r.1],
        st.transformation_matrices ++ [r.2.1],
        some (gray, kd.1, kd.2)⟩
    else
      ⟨st.movement_indices, st.movement_scores ++ [0],
        st.transformation_matrices ++ [none], some (gray, kd.1, kd.2)⟩
  | _, _ =>
    if 0 < idx then
      ⟨st.movement_indices, st.movement_scores ++ [0],
        st.transformation_matrices ++ [none], some (gray, kd.1, kd.2)⟩
    else
      ⟨st.movement_indices, st.movement_scores,
        st.transformation_matrices, some (gray, kd.1, kd.2)⟩

/-- The dictionary returned by `CameraMovementDetector.detect`. -/
structure DetectResult where
  movement_indices : List ℕ
  movement_scores : List ℚ
  transformation_matrices : List (Option HMat)
deriving DecidableEq

/-- The `for idx, frame in enumerate(frames)` loop of `detect`: fold
`detectStep` over index/frame pairs. -/
def detectLoop (E : CVEnv) (C : DetectorConfig) (ps : List (ℕ × RawFrame))
    (st : DState) : DState :=
  ps.foldl (fun st p => detectStep E C st p.1 p.2) st

/-- `CameraMovementDetector.detect`: fold `detectStep` over the enumerated
frame sequence and package the accumulators. -/
def detect (E : CVEnv) (C : DetectorConfig) (frames : List RawFrame) :
    DetectResult :=
  let final := detectLoop E C frames.enum initState
  ⟨final.movement_indices, final.movement_scores,
    final.transformation_matrices⟩

/-- The constructor defaults
`threshold_feature=5.0, threshold_homography=15.0, min_match_count=8`. -/
def defaultConfig : DetectorConfig := ⟨5, 15, 8⟩

/-! ## Concrete environments used to exercise the pipeline -/

/-- A one-bit descriptor. -/
def testDesc : Desc := [true]

/-- A keypoint at the origin. -/
def testKp : KeyPoint := ⟨⟨0, 0⟩⟩

/-- Eight mutual matches of distance 10 (the adaptive threshold is then
`min(50, 25) = 25`, so all eight are good). -/
def eightMatches : List DMatch := List.replicate 8 ⟨0, 0, 10⟩

/-- The identity homography. -/
def HId : HMat := ⟨1, 0, 0, 0, 1, 0, 0, 0, 1⟩

/-- A pure translation by (3, 4). -/
def HTrans : HMat := ⟨1, 0, 3, 0, 1, 4, 0, 0, 1⟩

/-- A base concrete environment: `sqrt` is interpreted as the identity (it
is only ever applied to oracle-visible nonnegative arguments), `atan2` as
the zero function, blur as the identity, a single keypoint/descriptor per
frame, eight good matches, the identity homography, no trackable corners
and an all-zero edge map. -/
def envA : CVEnv where
  sqrtF := fun q => q
  atan2F := fun _ _ => 0
  cvtColor := fun _ => []
  gaussianBlur := fun g => g
  detectAndCompute := fun _ => ([testKp], some [testDesc])
  bfMatch := fun _ _ => eightMatches
  findHomography := fun _ _ => some HId
  goodFeaturesToTrack := fun _ => none
  calcOpticalFlowPyrLK := fun _ _ _ => []
  canny := fun i => i.map (List.map fun _ => 0)

/-- Like `envA` but the first frame `[[0]]` yields an empty (non-`None`)
descriptor list. -/
def envB : CVEnv :=
  { envA with detectAndCompute := fun img =>
      if img = [[0]] then ([], some ([] : List Desc))
      else ([testKp], some [testDesc]) }

/-- Like `envA` but homography estimation always fails. -/
def envC : CVEnv := { envA with findHomography := fun _ _ => none }

/-- Like `envA` but with 8 detected corners all tracked by a (3, 4)
displacement (below the `> 10` corner requirement of the flow scorer). -/
def envD : CVEnv :=
  { envA with
      goodFeaturesToTrack := fun _ => some (List.replicate 8 ⟨0, 0⟩)
      calcOpticalFlowPyrLK := fun _ _ ps =>
        ps.map fun p => (⟨p.x + 3, p.y + 4⟩, true) }

/-- Like `envD` but with 12 detected corners (above the requirement). -/
def envD12 : CVEnv :=
  { envD with goodFeaturesToTrack := fun _ => some (List.replicate 12 ⟨0, 0⟩) }

/-- Like `envA` but estimating the (3, 4)-translation homography. -/
def envE : CVEnv := { envA with findHomography := fun _ _ => some HTrans }

/-- Like `envA` but the keypoint of frame `[[0]]` sits at the origin while
every other frame's keypoint sits at (3, 4), and estimation fails: each
matched pair then has squared displacement 25 (= 3² + 4²), read as 25 by
the identity `sqrtF`. -/
def envW : CVEnv :=
  { envA with
      detectAndCompute := fun img =>
        if img = [[0]] then ([testKp], some [testDesc])
        else ([⟨⟨3, 4⟩⟩], some [testDesc])
      findHomography := fun _ _ => none }

/-! ## Non-negativity of the numeric helpers -/

/-- The `sqrt` oracle is faithful to float `sqrt` on the nonnegative
arguments the pipeline feeds it: it returns a nonnegative value. -/
def SqrtNonneg (E : CVEnv) : Prop := ∀ q : ℚ, 0 ≤ q → 0 ≤ E.sqrtF q

lemma npMean_nonneg {l : List ℚ} (h : ∀ x ∈ l, 0 ≤ x) : 0 ≤ npMean l := by
  unfold npMean
  exact div_nonneg (List.sum_nonneg h) (Nat.cast_nonneg _)

lemma npVar_nonneg (l : List ℚ) : 0 ≤ npVar l := by
  unfold npVar
  apply npMean_nonneg
  intro x hx
  simp only [List.mem_map] at hx
  obtain ⟨y, -, rfl⟩ := hx
  positivity

lemma getD_nonneg : ∀ (l : List ℚ) (i : ℕ), (∀ x ∈ l, 0 ≤ x) → 0 ≤ l.getD i 0
  | [], i, _ => by simp
  | x :: _, 0, h => h x (by simp)
  | _ :: xs, i + 1, h => by
    simpa using getD_nonneg xs i fun y hy => h y (by simp [hy])

lemma mem_sortQ {a : ℚ} {l : List ℚ} : a ∈ sortQ l ↔ a ∈ l :=
  (List.perm_insertionSort _ l).mem_iff

lemma npMedian_nonneg {l : List ℚ} (h : ∀ x ∈ l, 0 ≤ x) : 0 ≤ npMedian l := by
  have hs : ∀ x ∈ sortQ l, 0 ≤ x := fun x hx => h x (mem_sortQ.1 hx)
  unfold npMedian
  dsimp only
  split
  · exact le_refl 0
  · split
    · exact getD_nonneg _ _ hs
    · have h1 := getD_nonneg (sortQ l) ((sortQ l).length / 2 - 1) hs
      have h2 := getD_nonneg (sortQ l) ((sortQ l).length / 2) hs
      have : (0 : ℚ) < 2 := by norm_num
      exact div_nonneg (add_nonneg h1 h2) (by norm_num)

lemma ptDist_nonneg (E : CVEnv) (hE : SqrtNonneg E) (p q : Pt) :
    0 ≤ ptDist E p q := by
  unfold ptDist
  exact hE _ (by positivity)

lemma displacements_nonneg (E : CVEnv) (hE : SqrtNonneg E) (src dst : List Pt) :
    ∀ x ∈ displacements E src dst, 0 ≤ x := by
  intro x hx
  unfold displacements at hx
  simp only [List.mem_map] at hx
  obtain ⟨p, -, rfl⟩ := hx
  exact ptDist_nonneg E hE _ _

lemma calculate_movement_score_nonneg (E : CVEnv) (hE : SqrtNonneg E)
    (H : Option HMat) (src_pts dst_pts : List Pt) :
    0 ≤ calculate_movement_score E H src_pts dst_pts := by
  unfold calculate_movement_score
  match H with
  | some h =>
    dsimp only
    have h1 : 0 ≤ E.sqrtF (h.h02 ^ 2 + h.h12 ^ 2) := hE _ (by positivity)
    have h2 : (0 : ℚ) ≤ |E.atan2F h.h10 h.h00| := abs_nonneg _
    have h3 : (0 : ℚ) ≤ |1 - (E.sqrtF (h.h00 ^ 2 + h.h10 ^ 2) +
        E.sqrtF (h.h01 ^ 2 + h.h11 ^ 2)) / 2| := abs_nonneg _
    have h4 : (0 : ℚ) ≤ |h.h20| + |h.h21| :=
      add_nonneg (abs_nonneg _) (abs_nonneg _)
    have h5 : (0 : ℚ) ≤
        (if 0 < src_pts.length ∧ 0 < dst_pts.length then
          if 1 < (displacements E src_pts dst_pts).length then
            npVar (displacements E src_pts dst_pts)
          else 0
        else 0) := by
      split
      · split
        · exact npVar_nonneg _
        · exact le_refl 0
      · exact le_refl 0
    have e1 : (0 : ℚ) ≤ 1.5 := by norm_num
    have e2 : (0 : ℚ) ≤ 30 := by norm_num
    have e3 : (0 : ℚ) ≤ 50 := by norm_num
    have e4 : (0 : ℚ) ≤ 20 := by norm_num
    have e5 : (0 : ℚ) ≤ 0.1 := by norm_num
    exact add_nonneg (add_nonneg (add_nonneg (add_nonneg
      (mul_nonneg h1 e1) (mul_nonneg h2 e2)) (mul_nonneg h3 e3))
      (mul_nonneg h4 e4)) (mul_nonneg h5 e5)
  | none =>
    dsimp only
    split
    · exact le_refl 0
    · exact add_nonneg
        (npMedian_nonneg (displacements_nonneg E hE src_pts dst_pts))
        (mul_nonneg (npVar_nonneg _) (by norm_num))

lemma calculate_frame_difference_score_nonneg (a b : Img) :
    0 ≤ calculate_frame_difference_score a b := by
  unfold calculate_frame_difference_score
  split
  · have h1 : (0 : ℚ) ≤
        ((((a.flatten.zip b.flatten).map fun p => |p.1 - p.2|).filter
          fun v => 25 < v).length : ℚ) / ((a.length * (a.headD []).length : ℕ) : ℚ) * 100 := by
      positivity
    have h2 : 0 ≤ npMean ((a.flatten.zip b.flatten).map fun p => |p.1 - p.2|) := by
      apply npMean_nonneg
      intro x hx
      simp only [List.mem_map] at hx
      obtain ⟨p, -, rfl⟩ := hx
      exact abs_nonneg _
    exact add_nonneg h1 (mul_nonneg h2 (by norm_num))
  · exact le_refl 0

lemma calculate_optical_flow_score_nonneg (E : CVEnv) (hE : SqrtNonneg E)
    (a b : Img) : 0 ≤ calculate_optical_flow_score E a b := by
  unfold calculate_optical_flow_score
  split
  · exact le_refl 0
  · split
    · dsimp only
      split
      · apply mul_nonneg _ (by norm_num)
        apply npMedian_nonneg
        intro x hx
        simp only [List.mem_map] at hx
        obtain ⟨p, -, rfl⟩ := hx
        exact ptDist_nonneg E hE _ _
      · exact le_refl 0
    · exact le_refl 0

lemma calculate_edge_motion_score_nonneg (E : CVEnv) (a b : Img) :
    0 ≤ calculate_edge_motion_score E a b := by
  unfold calculate_edge_motion_score
  dsimp only
  split
  · apply mul_nonneg _ (by norm_num)
    apply npMean_nonneg
    intro x hx
    simp only [List.mem_map] at hx
    obtain ⟨p, -, rfl⟩ := hx
    exact abs_nonneg _
  · exact le_refl 0

/-! ## Behaviour of the per-transition scoring core -/

lemma geometricScore_nonneg (E : CVEnv) (hE : SqrtNonneg E)
    (C : DetectorConfig) (prev_kp kp : List KeyPoint) (good : List DMatch) :
    0 ≤ (geometricScore E C prev_kp kp good).1 := by
  unfold geometricScore
  split
  · dsimp only
    split
    · exact calculate_movement_score_nonneg E hE _ _ _
    · exact calculate_movement_score_nonneg E hE _ _ _
  · exact le_refl 0

lemma geometricScore_flag_min (E : CVEnv) (C : DetectorConfig)
    (prev_kp kp : List KeyPoint) (good : List DMatch)
    (h : (geometricScore E C prev_kp kp good).2.2 = true) :
    C.min_match_count ≤ good.length := by
  by_contra hlt
  unfold geometricScore at h
  rw [if_neg hlt] at h
  simp at h

lemma geometricScore_flag_pos (E : CVEnv) (C : DetectorConfig)
    (prev_kp kp : List KeyPoint) (good : List DMatch)
    (hH : 0 ≤ C.threshold_homography)
    (h : (geometricScore E C prev_kp kp good).2.2 = true) :
    0 < (geometricScore E C prev_kp kp good).1 := by
  unfold geometricScore at h ⊢
  by_cases hle : C.min_match_count ≤ good.length
  · rw [if_pos hle] at h ⊢
    dsimp only at h ⊢
    rcases hfind : E.findHomography (srcPts prev_kp good) (dstPts kp good)
      with _ | hm
    · rw [hfind] at h
      dsimp only at h
      simp only [decide_eq_true_eq] at h
      nlinarith
    · rw [hfind] at h
      dsimp only at h
      simp only [decide_eq_true_eq] at h
      linarith
  · rw [if_neg hle] at h
    simp at h

lemma geometricScore_mono (E : CVEnv) (C C' : DetectorConfig)
    (hmin : C'.min_match_count = C.min_match_count)
    (hH : C'.threshold_homography ≤ C.threshold_homography)
    (prev_kp kp : List KeyPoint) (good : List DMatch) :
    (geometricScore E C' prev_kp kp good).1 =
      (geometricScore E C prev_kp kp good).1 ∧
    (geometricScore E C' prev_kp kp good).2.1 =
      (geometricScore E C prev_kp kp good).2.1 ∧
    ((geometricScore E C prev_kp kp good).2.2 = true →
      (geometricScore E C' prev_kp kp good).2.2 = true) := by
  unfold geometricScore
  rw [hmin]
  by_cases hle : C.min_match_count ≤ good.length
  · rw [if_pos hle, if_pos hle]
    dsimp only
    rcases hfind : E.findHomography (srcPts prev_kp good) (dstPts kp good)
      with _ | hm
    · dsimp only
      refine ⟨rfl, rfl, ?_⟩
      simp only [decide_eq_true_eq]
      intro h
      nlinarith
    · dsimp only
      refine ⟨rfl, rfl, ?_⟩
      simp only [decide_eq_true_eq]
      intro h
      linarith
  · rw [if_neg hle, if_neg hle]
    exact ⟨rfl, rfl, fun h => h⟩

lemma transitionScore_nonneg (E : CVEnv) (hE : SqrtNonneg E)
    (C : DetectorConfig) (pf : Img) (pk : List KeyPoint) (pd : List Desc)
    (g : Img) (kp : List KeyPoint) (d : List Desc) :
    0 ≤ (transitionScore E C pf pk pd g kp d).1 := by
  unfold transitionScore
  dsimp only
  split
  · exact le_trans (calculate_frame_difference_score_nonneg pf g)
      (le_max_left _ _)
  · exact geometricScore_nonneg E hE C pk kp _

lemma transitionScore_flag1 (E : CVEnv) (C : DetectorConfig) (pf : Img)
    (pk : List KeyPoint) (pd : List Desc) (g : Img) (kp : List KeyPoint)
    (d : List Desc) (hH : 0 ≤ C.threshold_homography)
    (h : (transitionScore E C pf pk pd g kp d).2.2.1 = true) :
    0 < (transitionScore E C pf pk pd g kp d).1 ∧
      (transitionScore E C pf pk pd g kp d).2.2.2 = false := by
  unfold transitionScore at h ⊢
  dsimp only at h ⊢
  by_cases hc : (geometricScore E C pk kp
      (goodMatchesOf (sortMatches (E.bfMatch pd d)))).1 = 0 ∨
      (goodMatchesOf (sortMatches (E.bfMatch pd d))).length <
        C.min_match_count
  · rw [if_pos hc] at h
    dsimp only at h
    exact absurd (geometricScore_flag_pos E C pk kp _ hH h) (by
      rcases hc with hc | hc
      · rw [hc]; exact lt_irrefl 0
      · exact absurd (geometricScore_flag_min E C pk kp _ h) (not_le.mpr hc))
  · rw [if_neg hc] at h ⊢
    dsimp only at h ⊢
    exact ⟨geometricScore_flag_pos E C pk kp _ hH h, rfl⟩

lemma transitionScore_flag2 (E : CVEnv) (C : DetectorConfig) (pf : Img)
    (pk : List KeyPoint) (pd : List Desc) (g : Img) (kp : List KeyPoint)
    (d : List Desc) (hF : 0 ≤ C.threshold_feature)
    (h : (transitionScore E C pf pk pd g kp d).2.2.2 = true) :
    0 < (transitionScore E C pf pk pd g kp d).1 := by
  unfold transitionScore at h ⊢
  dsimp only at h ⊢
  by_cases hc : (geometricScore E C pk kp
      (goodMatchesOf (sortMatches (E.bfMatch pd d)))).1 = 0 ∨
      (goodMatchesOf (sortMatches (E.bfMatch pd d))).length <
        C.min_match_count
  · rw [if_pos hc] at h ⊢
    dsimp only at h ⊢
    simp only [decide_eq_true_eq] at h
    linarith
  · rw [if_neg hc] at h
    simp at h

lemma transitionScore_mono (E : CVEnv) (C C' : DetectorConfig)
    (hmin : C'.min_match_count = C.min_match_count)
    (hF : C'.threshold_feature ≤ C.threshold_feature)
    (hH : C'.threshold_homography ≤ C.threshold_homography)
    (pf : Img) (pk : List KeyPoint) (pd : List Desc) (g : Img)
    (kp : List KeyPoint) (d : List Desc) :
    (transitionScore E C' pf pk pd g kp d).1 =
      (transitionScore E C pf pk pd g kp d).1 ∧
    (transitionScore E C' pf pk pd g kp d).2.1 =
      (transitionScore E C pf pk pd g kp d).2.1 ∧
    ((transitionScore E C pf pk pd g kp d).2.2.1 = true →
      (transitionScore E C' pf pk pd g kp d).2.2.1 = true) ∧
    ((transitionScore E C pf pk pd g kp d).2.2.2 = true →
      (transitionScore E C' pf pk pd g kp d).2.2.2 = true) := by
  obtain ⟨g1, g2, g3⟩ := geometricScore_mono E C C' hmin hH pk kp
    (goodMatchesOf (sortMatches (E.bfMatch pd d)))
  unfold transitionScore
  dsimp only
  rw [hmin, g1]
  by_cases hc : (geometricScore E C pk kp
      (goodMatchesOf (sortMatches (E.bfMatch pd d)))).1 = 0 ∨
      (goodMatchesOf (sortMatches (E.bfMatch pd d))).length <
        C.min_match_count
  · rw [if_pos hc, if_pos hc]
    dsimp only
    rw [g2]
    refine ⟨rfl, rfl, fun h => ?_, ?_⟩
    · exact g3 h
    · simp only [decide_eq_true_eq]
      intro h
      linarith
  · rw [if_neg hc, if_neg hc]
    dsimp only
    exact ⟨rfl, g2, g3, fun h => by simp at h⟩

/-! ## Behaviour of one detector iteration -/

lemma detectLoop_nil (E : CVEnv) (C : DetectorConfig) (st : DState) :
    detectLoop E C [] st = st := rfl

lemma detectLoop_cons (E : CVEnv) (C : DetectorConfig) (p : ℕ × RawFrame)
    (ps : List (ℕ × RawFrame)) (st : DState) :
    detectLoop E C (p :: ps) st =
      detectLoop E C ps (detectStep E C st p.1 p.2) := rfl

lemma detectStep_prev (E : CVEnv) (C : DetectorConfig) (st : DState)
    (idx : ℕ) (f : RawFrame) :
    (detectStep E C st idx f).prev = some (preprocess E f,
      (E.detectAndCompute (preprocess E f)).1,
      (E.detectAndCompute (preprocess E f)).2) := by
  unfold detectStep
  dsimp only
  split
  · split_ifs <;> rfl
  · split_ifs <;> rfl

lemma detectStep_lengths (E : CVEnv) (C : DetectorConfig) (st : DState)
    (idx : ℕ) (f : RawFrame) (h : 0 < idx) :
    (detectStep E C st idx f).movement_scores.length =
      st.movement_scores.length + 1 ∧
    (detectStep E C st idx f).transformation_matrices.length =
      st.transformation_matrices.length + 1 := by
  unfold detectStep
  dsimp only
  split
  · split_ifs <;> simp
  · split_ifs
    simp

lemma detectStep_scores_nonneg (E : CVEnv) (hE : SqrtNonneg E)
    (C : DetectorConfig) (st : DState) (idx : ℕ) (f : RawFrame)
    (h0 : ∀ s ∈ st.movement_scores, 0 ≤ s) :
    ∀ s ∈ (detectStep E C st idx f).movement_scores, 0 ≤ s := by
  unfold detectStep
  dsimp only
  split
  · rename_i pf pk pd des heq1 heq2
    by_cases hlen : 0 < pd.length ∧ 0 < des.length
    · rw [if_pos hlen]
      dsimp only
      intro s hs
      rw [List.mem_append] at hs
      rcases hs with hs | hs
      · exact h0 s hs
      · rw [List.mem_singleton] at hs
        subst hs
        exact transitionScore_nonneg E hE C pf pk pd _ _ des
    · rw [if_neg hlen]
      dsimp only
      intro s hs
      rw [List.mem_append] at hs
      rcases hs with hs | hs
      · exact h0 s hs
      · rw [List.mem_singleton] at hs
        subst hs
        exact le_refl (0 : ℚ)
  · by_cases hidx : 0 < idx
    · rw [if_pos hidx]
      dsimp only
      intro s hs
      rw [List.mem_append] at hs
      rcases hs with hs | hs
      · exact h0 s hs
      · rw [List.mem_singleton] at hs
        subst hs
        exact le_refl (0 : ℚ)
    · rw [if_neg hidx]
      exact h0

/-! ## The loop invariant behind the result-shape claims -/

/-- Invariant carried by the detector loop: before processing index `n`
(`n ≥ 1`), the score and matrix accumulators hold one entry per previous
transition, all scores are nonnegative, the flagged indices are strictly
ascending, lie in `{1, …, n-1}`, and each has a strictly positive score at
its transition slot. -/
structure LoopInv (n : ℕ) (st : DState) : Prop where
  slen : st.movement_scores.length = n - 1
  mlen : st.transformation_matrices.length = n - 1
  nonneg : ∀ s ∈ st.movement_scores, 0 ≤ s
  sorted : st.movement_indices.Pairwise (· < ·)
  bounds : ∀ i ∈ st.movement_indices, 1 ≤ i ∧ i ≤ n - 1
  pos : ∀ i ∈ st.movement_indices,
    0 < st.movement_scores.getD (i - 1) 0

lemma LoopInv_append (n : ℕ) (hn : 1 ≤ n) (st st' : DState) (x : ℚ)
    (ii : List ℕ) (m : Option HMat) (inv : LoopInv n st)
    (hi : st'.movement_indices = st.movement_indices ++ ii)
    (hs : st'.movement_scores = st.movement_scores ++ [x])
    (hm : st'.transformation_matrices = st.transformation_matrices ++ [m])
    (hx : 0 ≤ x)
    (hii : ii = [] ∨ (ii = [n] ∧ 0 < x)) :
    LoopInv (n + 1) st' := by
  constructor
  · rw [hs, List.length_append, inv.slen, List.length_singleton]
    omega
  · rw [hm, List.length_append, inv.mlen, List.length_singleton]
    omega
  · rw [hs]
    intro s hmem
    rw [List.mem_append] at hmem
    rcases hmem with hmem | hmem
    · exact inv.nonneg s hmem
    · rw [List.mem_singleton] at hmem
      subst hmem
      exact hx
  · rw [hi]
    rcases hii with hii | ⟨hii, -⟩
    · subst hii
      simpa using inv.sorted
    · subst hii
      rw [List.pairwise_append]
      refine ⟨inv.sorted, by simp, ?_⟩
      intro a ha b hb
      rw [List.mem_singleton] at hb
      subst hb
      have := inv.bounds a ha
      omega
  · rw [hi]
    intro i hmem
    rw [List.mem_append] at hmem
    rcases hmem with hmem | hmem
    · have := inv.bounds i hmem
      omega
    · rcases hii with hii | ⟨hii, -⟩
      · subst hii; simp at hmem
      · subst hii
        rw [List.mem_singleton] at hmem
        subst hmem
        omega
  · rw [hi, hs]
    intro i hmem
    rw [List.mem_append] at hmem
    rcases hmem with hmem | hmem
    · have hb := inv.bounds i hmem
      have hlt : i - 1 < st.movement_scores.length := by
        rw [inv.slen]; omega
      rw [List.getD_append _ _ _ _ hlt]
      exact inv.pos i hmem
    · rcases hii with hii | ⟨hii, hxpos⟩
      · subst hii; simp at hmem
      · subst hii
        rw [List.mem_singleton] at hmem
        rw [hmem]
        have hlen : n - 1 = st.movement_scores.length := inv.slen.symm
        rw [hlen, List.getD_append_right _ _ _ _ (le_refl _)]
        simpa using hxpos

lemma detectStep_inv (E : CVEnv) (hE : SqrtNonneg E) (C : DetectorConfig)
    (hF : 0 ≤ C.threshold_feature) (hH : 0 ≤ C.threshold_homography)
    (n : ℕ) (hn : 1 ≤ n) (st : DState) (f : RawFrame)
    (hinv : LoopInv n st) : LoopInv (n + 1) (detectStep E C st n f) := by
  unfold detectStep
  dsimp only
  split
  · rename_i pf pk pd des heq1 heq2
    by_cases hlen : 0 < pd.length ∧ 0 < des.length
    · rw [if_pos hlen]
      rcases hb1 : (transitionScore E C pf pk pd (preprocess E f)
          (E.detectAndCompute (preprocess E f)).1 des).2.2.1 with _ | _
      · rcases hb2 : (transitionScore E C pf pk pd (preprocess E f)
            (E.detectAndCompute (preprocess E f)).1 des).2.2.2 with _ | _
        · exact LoopInv_append n hn st _ _ [] _ hinv
            (by simp [hb1, hb2]) rfl rfl
            (transitionScore_nonneg E hE C pf pk pd _ _ des) (Or.inl rfl)
        · exact LoopInv_append n hn st _ _ [n] _ hinv
            (by simp [hb1, hb2]) rfl rfl
            (transitionScore_nonneg E hE C pf pk pd _ _ des)
            (Or.inr ⟨rfl, transitionScore_flag2 E C pf pk pd _ _ des hF hb2⟩)
      · obtain ⟨hpos, hf2⟩ :=
          transitionScore_flag1 E C pf pk pd (preprocess E f)
            (E.detectAndCompute (preprocess E f)).1 des hH hb1
        exact LoopInv_append n hn st _ _ [n] _ hinv
          (by simp [hb1, hf2]) rfl rfl
          (transitionScore_nonneg E hE C pf pk pd _ _ des)
          (Or.inr ⟨rfl, hpos⟩)
    · rw [if_neg hlen]
      exact LoopInv_append n hn st _ (0 : ℚ) [] none hinv
        (by simp) rfl rfl (le_refl (0 : ℚ)) (Or.inl rfl)
  · by_cases hidx : 0 < n
    · rw [if_pos hidx]
      exact LoopInv_append n hn st _ (0 : ℚ) [] none hinv
        (by simp) rfl rfl (le_refl (0 : ℚ)) (Or.inl rfl)
    · exact absurd hn (by omega)

lemma detectLoop_inv (E : CVEnv) (hE : SqrtNonneg E) (C : DetectorConfig)
    (hF : 0 ≤ C.threshold_feature) (hH : 0 ≤ C.threshold_homography)
    (frames : List RawFrame) :
    ∀ (n : ℕ) (st : DState), 1 ≤ n → LoopInv n st →
      LoopInv (n + frames.length)
        (detectLoop E C (List.enumFrom n frames) st) := by
  induction frames with
  | nil => intro n st _ hinv; simpa [detectLoop] using hinv
  | cons f t ih =>
    intro n st hn hinv
    have h1 : List.enumFrom n (f :: t) =
        (n, f) :: List.enumFrom (n + 1) t := rfl
    rw [h1, detectLoop_cons]
    have := ih (n + 1) (detectStep E C st n f) (by omega)
      (detectStep_inv E hE C hF hH n hn st f hinv)
    have harith : n + 1 + t.length = n + (f :: t).length := by
      simp; omega
    rw [harith] at this
    exact this

lemma detectLoop_lengths (E : CVEnv) (C : DetectorConfig)
    (frames : List RawFrame) :
    ∀ (n : ℕ) (st : DState), 1 ≤ n →
      (detectLoop E C (List.enumFrom n frames) st).movement_scores.length =
        st.movement_scores.length + frames.length ∧
      (detectLoop E C
          (List.enumFrom n frames) st).transformation_matrices.length =
        st.transformation_matrices.length + frames.length := by
  induction frames with
  | nil => intro n st _; simp [detectLoop]
  | cons f t ih =>
    intro n st hn
    have h1 : List.enumFrom n (f :: t) =
        (n, f) :: List.enumFrom (n + 1) t := rfl
    rw [h1, detectLoop_cons]
    obtain ⟨hs, hm⟩ := ih (n + 1) (detectStep E C st n f) (by omega)
    obtain ⟨hs', hm'⟩ := detectStep_lengths E C st n f hn
    rw [hs, hm, hs', hm']
    simp
    omega

lemma detectStep_init (E : CVEnv) (C : DetectorConfig) (f : RawFrame) :
    detectStep E C initState 0 f = ⟨[], [], [], some (preprocess E f,
      (E.detectAndCompute (preprocess E f)).1,
      (E.detectAndCompute (preprocess E f)).2)⟩ := by
  unfold detectStep initState
  dsimp only
  rfl

/-! ## Monotonicity in the thresholds -/

lemma flagLen_mono (b b' : Bool) (idx : ℕ) (h : b = true → b' = true) :
    (if b then [idx] else []).length ≤ (if b' then [idx] else []).length := by
  cases b
  · simp
  · rw [h rfl]

lemma detectStep_mono (E : CVEnv) (C C' : DetectorConfig)
    (hmin : C'.min_match_count = C.min_match_count)
    (hF : C'.threshold_feature ≤ C.threshold_feature)
    (hH : C'.threshold_homography ≤ C.threshold_homography)
    (st1 st2 : DState)
    (hsc : st2.movement_scores = st1.movement_scores)
    (hmt : st2.transformation_matrices = st1.transformation_matrices)
    (hpv : st2.prev = st1.prev)
    (hlen : st1.movement_indices.length ≤ st2.movement_indices.length)
    (idx : ℕ) (f : RawFrame) :
    (detectStep E C' st2 idx f).movement_scores =
      (detectStep E C st1 idx f).movement_scores ∧
    (detectStep E C' st2 idx f).transformation_matrices =
      (detectStep E C st1 idx f).transformation_matrices ∧
    (detectStep E C' st2 idx f).prev = (detectStep E C st1 idx f).prev ∧
    (detectStep E C st1 idx f).movement_indices.length ≤
      (detectStep E C' st2 idx f).movement_indices.length := by
  unfold detectStep
  dsimp only
  rw [hpv, hsc, hmt]
  rcases hp : st1.prev with _ | ⟨pf, pk, pdo⟩
  · dsimp only
    by_cases hidx : 0 < idx
    · rw [if_pos hidx, if_pos hidx]
      exact ⟨rfl, rfl, rfl, hlen⟩
    · rw [if_neg hidx, if_neg hidx]
      exact ⟨rfl, rfl, rfl, hlen⟩
  · rcases pdo with _ | pd
    · dsimp only
      by_cases hidx : 0 < idx
      · rw [if_pos hidx, if_pos hidx]
        exact ⟨rfl, rfl, rfl, hlen⟩
      · rw [if_neg hidx, if_neg hidx]
        exact ⟨rfl, rfl, rfl, hlen⟩
    · rcases hd : (E.detectAndCompute (preprocess E f)).2 with _ | des
      · dsimp only
        by_cases hidx : 0 < idx
        · rw [if_pos hidx, if_pos hidx]
          exact ⟨rfl, rfl, rfl, hlen⟩
        · rw [if_neg hidx, if_neg hidx]
          exact ⟨rfl, rfl, rfl, hlen⟩
      · dsimp only
        by_cases hl : 0 < pd.length ∧ 0 < des.length
        · rw [if_pos hl, if_pos hl]
          obtain ⟨m1, m2, m3, m4⟩ := transitionScore_mono E C C' hmin hF hH
            pf pk pd (preprocess E f) (E.detectAndCompute (preprocess E f)).1
            des
          refine ⟨by rw [m1], by rw [m2], rfl, ?_⟩
          simp only [List.length_append]
          have l1 := flagLen_mono _ _ idx m3
          have l2 := flagLen_mono _ _ idx m4
          omega
        · rw [if_neg hl, if_neg hl]
          exact ⟨rfl, rfl, rfl, hlen⟩

lemma detectLoop_mono (E : CVEnv) (C C' : DetectorConfig)
    (hmin : C'.min_match_count = C.min_match_count)
    (hF : C'.threshold_feature ≤ C.threshold_feature)
    (hH : C'.threshold_homography ≤ C.threshold_homography)
    (ps : List (ℕ × RawFrame)) :
    ∀ (st1 st2 : DState),
      st2.movement_scores = st1.movement_scores →
      st2.transformation_matrices = st1.transformation_matrices →
      st2.prev = st1.prev →
      st1.movement_indices.length ≤ st2.movement_indices.length →
      (detectLoop E C' ps st2).movement_scores =
        (detectLoop E C ps st1).movement_scores ∧
      (detectLoop E C' ps st2).transformation_matrices =
        (detectLoop E C ps st1).transformation_matrices ∧
      (detectLoop E C' ps st2).prev = (detectLoop E C ps st1).prev ∧
      (detectLoop E C ps st1).movement_indices.length ≤
        (detectLoop E C' ps st2).movement_indices.length := by
  induction ps with
  | nil => intro st1 st2 h1 h2 h3 h4; exact ⟨h1, h2, h3, h4⟩
  | cons p t ih =>
    intro st1 st2 h1 h2 h3 h4
    rw [detectLoop_cons, detectLoop_cons]
    obtain ⟨s1, s2, s3, s4⟩ :=
      detectStep_mono E C C' hmin hF hH st1 st2 h1 h2 h3 h4 p.1 p.2
    exact ih (detectStep E C st1 p.1 p.2) (detectStep E C' st2 p.1 p.2)
      s1 s2 s3 s4

/-! ## Path-by-path characterisation of a scored transition -/

/-- The claim-level spelling of the homography decomposition: the variance
guard of the source (`len > 0` and `len > 1`) collapses to a single
`1 < pairs` test, since the displacement list is empty whenever either point
list is. -/
lemma calculate_movement_score_some_eq (E : CVEnv) (h : HMat)
    (src_pts dst_pts : List Pt) :
    calculate_movement_score E (some h) src_pts dst_pts =
      E.sqrtF (h.h02 ^ 2 + h.h12 ^ 2) * 1.5 +
      |E.atan2F h.h10 h.h00| * 30 +
      |1 - (E.sqrtF (h.h00 ^ 2 + h.h10 ^ 2) +
        E.sqrtF (h.h01 ^ 2 + h.h11 ^ 2)) / 2| * 50 +
      (|h.h20| + |h.h21|) * 20 +
      (if 1 < (displacements E src_pts dst_pts).length then
        npVar (displacements E src_pts dst_pts) else 0) * 0.1 := by
  unfold calculate_movement_score
  dsimp only
  congr 2
  by_cases hg : 0 < src_pts.length ∧ 0 < dst_pts.length
  · rw [if_pos hg]
  · rw [if_neg hg]
    have hlen : (displacements E src_pts dst_pts).length =
        min src_pts.length dst_pts.length := by
      unfold displacements
      rw [List.length_map, List.length_zip]
    have hz : ¬ 1 < (displacements E src_pts dst_pts).length := by
      rw [hlen]
      omega
    rw [if_neg hz]

/-- `detectStep` on a fully-scored transition: when the previous frame with
descriptors exists, the current frame has descriptors and both descriptor
lists are nonempty, the step appends exactly the `transitionScore` outcome. -/
lemma detectStep_transition (E : CVEnv) (C : DetectorConfig) (st : DState)
    (idx : ℕ) (frame : RawFrame) (pf : Img) (pk : List KeyPoint)
    (pd des : List Desc)
    (hprev : st.prev = some (pf, pk, some pd))
    (hdes : (E.detectAndCompute (preprocess E frame)).2 = some des)
    (hpd : 0 < pd.length) (hd : 0 < des.length) :
    detectStep E C st idx frame =
      ⟨st.movement_indices ++
          (if (transitionScore E C pf pk pd (preprocess E frame)
              (E.detectAndCompute (preprocess E frame)).1 des).2.2.1 then
            [idx] else []) ++
          (if (transitionScore E C pf pk pd (preprocess E frame)
              (E.detectAndCompute (preprocess E frame)).1 des).2.2.2 then
            [idx] else []),
        st.movement_scores ++ [(transitionScore E C pf pk pd
          (preprocess E frame)
          (E.detectAndCompute (preprocess E frame)).1 des).1],
        st.transformation_matrices ++ [(transitionScore E C pf pk pd
          (preprocess E frame)
          (E.detectAndCompute (preprocess E frame)).1 des).2.1],
        some (preprocess E frame,
          (E.detectAndCompute (preprocess E frame)).1, some des)⟩ := by
  unfold detectStep
  dsimp only
  rw [hprev, hdes]
  dsimp only
  rw [if_pos ⟨hpd, hd⟩]

/-- `detectStep` on a transition that is not scored (no previous frame, a
missing descriptor set on either side, or an empty descriptor list): for
`idx > 0` a zero score and an absent matrix are appended and nothing is
flagged. -/
lemma detectStep_skip (E : CVEnv) (C : DetectorConfig) (st : DState)
    (idx : ℕ) (frame : RawFrame) (pf : Img) (pk : List KeyPoint)
    (pd des : List Desc)
    (hprev : st.prev = some (pf, pk, some pd))
    (hdes : (E.detectAndCompute (preprocess E frame)).2 = some des)
    (hempty : pd.length = 0 ∨ des.length = 0) :
    detectStep E C st idx frame =
      ⟨st.movement_indices, st.movement_scores ++ [0],
        st.transformation_matrices ++ [none],
        some (preprocess E frame,
          (E.detectAndCompute (preprocess E frame)).1, some des)⟩ := by
  unfold detectStep
  dsimp only
  rw [hprev, hdes]
  dsimp only
  rw [if_neg (by omega)]

/-- The fused fallback score: `max` of the three signals of `utils.py`. -/
def fusedFallback (E : CVEnv) (prev_frame gray : Img) : ℚ :=
  max (calculate_frame_difference_score prev_frame gray)
    (max (calculate_optical_flow_score E prev_frame gray)
      (calculate_edge_motion_score E prev_frame gray))

/-- `transitionScore` on the clean homography path (enough good matches, a
matrix returned, nonzero decomposition score): the geometric score is kept
and the fallback never runs. -/
lemma transitionScore_geo_some (E : CVEnv) (C : DetectorConfig) (pf : Img)
    (pk : List KeyPoint) (pd : List Desc) (g : Img) (kp : List KeyPoint)
    (des : List Desc) (h : HMat)
    (hmin : C.min_match_count ≤
      (goodMatchesOf (sortMatches (E.bfMatch pd des))).length)
    (hfind : E.findHomography
      (srcPts pk (goodMatchesOf (sortMatches (E.bfMatch pd des))))
      (dstPts kp (goodMatchesOf (sortMatches (E.bfMatch pd des)))) = some h)
    (hs : calculate_movement_score E (some h)
      (srcPts pk (goodMatchesOf (sortMatches (E.bfMatch pd des))))
      (dstPts kp (goodMatchesOf (sortMatches (E.bfMatch pd des)))) ≠ 0) :
    transitionScore E C pf pk pd g kp des =
      (calculate_movement_score E (some h)
        (srcPts pk (goodMatchesOf (sortMatches (E.bfMatch pd des))))
        (dstPts kp (goodMatchesOf (sortMatches (E.bfMatch pd des)))),
       some h,
       decide (C.threshold_homography < calculate_movement_score E (some h)
        (srcPts pk (goodMatchesOf (sortMatches (E.bfMatch pd des))))
        (dstPts kp (goodMatchesOf (sortMatches (E.bfMatch pd des))))),
       false) := by
  unfold transitionScore
  dsimp only
  unfold geometricScore
  rw [if_pos hmin]
  dsimp only
  rw [hfind]
  dsimp only
  rw [if_neg (by push_neg; exact ⟨hs, hmin⟩)]

/-- `transitionScore` on the degenerate-homography path (enough good
matches, estimation failed, nonzero median+variance score). -/
lemma transitionScore_geo_none (E : CVEnv) (C : DetectorConfig) (pf : Img)
    (pk : List KeyPoint) (pd : List Desc) (g : Img) (kp : List KeyPoint)
    (des : List Desc)
    (hmin : C.min_match_count ≤
      (goodMatchesOf (sortMatches (E.bfMatch pd des))).length)
    (hfind : E.findHomography
      (srcPts pk (goodMatchesOf (sortMatches (E.bfMatch pd des))))
      (dstPts kp (goodMatchesOf (sortMatches (E.bfMatch pd des)))) = none)
    (hs : calculate_movement_score E none
      (srcPts pk (goodMatchesOf (sortMatches (E.bfMatch pd des))))
      (dstPts kp (goodMatchesOf (sortMatches (E.bfMatch pd des)))) ≠ 0) :
    transitionScore E C pf pk pd g kp des =
      (calculate_movement_score E none
        (srcPts pk (goodMatchesOf (sortMatches (E.bfMatch pd des))))
        (dstPts kp (goodMatchesOf (sortMatches (E.bfMatch pd des)))),
       none,
       decide (C.threshold_homography * 0.5 <
        calculate_movement_score E none
        (srcPts pk (goodMatchesOf (sortMatches (E.bfMatch pd des))))
        (dstPts kp (goodMatchesOf (sortMatches (E.bfMatch pd des))))),
       false) := by
  unfold transitionScore
  dsimp only
  unfold geometricScore
  rw [if_pos hmin]
  dsimp only
  rw [hfind]
  dsimp only
  rw [if_neg (by push_neg; exact ⟨hs, hmin⟩)]

/-- `transitionScore` when a homography came back but its decomposition
score is exactly 0: the fallback fusion overwrites the score (line 52 of
`detector.py`), flagging is against `threshold_feature`, yet the matrix
slot keeps the estimated homography. -/
lemma transitionScore_geo_some_zero (E : CVEnv) (C : DetectorConfig)
    (pf : Img) (pk : List KeyPoint) (pd : List Desc) (g : Img)
    (kp : List KeyPoint) (des : List Desc) (h : HMat)
    (hmin : C.min_match_count ≤
      (goodMatchesOf (sortMatches (E.bfMatch pd des))).length)
    (hfind : E.findHomography
      (srcPts pk (goodMatchesOf (sortMatches (E.bfMatch pd des))))
      (dstPts kp (goodMatchesOf (sortMatches (E.bfMatch pd des)))) = some h)
    (hs : calculate_movement_score E (some h)
      (srcPts pk (goodMatchesOf (sortMatches (E.bfMatch pd des))))
      (dstPts kp (goodMatchesOf (sortMatches (E.bfMatch pd des)))) = 0) :
    transitionScore E C pf pk pd g kp des =
      (fusedFallback E pf g,
       some h,
       decide (C.threshold_homography < (0 : ℚ)),
       decide (C.threshold_feature < fusedFallback E pf g)) := by
  unfold transitionScore
  dsimp only
  unfold geometricScore
  rw [if_pos hmin]
  dsimp only
  rw [hfind]
  dsimp only
  rw [hs, if_pos (Or.inl rfl)]
  rfl

/-- `transitionScore` on the fallback path proper (too few good matches):
no geometric attempt, the fused signal is the score, flagging is against
`threshold_feature`. -/
lemma transitionScore_fallback (E : CVEnv) (C : DetectorConfig) (pf : Img)
    (pk : List KeyPoint) (pd : List Desc) (g : Img) (kp : List KeyPoint)
    (des : List Desc)
    (hlt : (goodMatchesOf (sortMatches (E.bfMatch pd des))).length <
      C.min_match_count) :
    transitionScore E C pf pk pd g kp des =
      (fusedFallback E pf g, none, false,
       decide (C.threshold_feature < fusedFallback E pf g)) := by
  unfold transitionScore
  dsimp only
  unfold geometricScore
  rw [if_neg (not_le.mpr hlt)]
  dsimp only
  rw [if_pos (Or.inr hlt)]
  rfl

/-! ## The claims -/

/-- C1: for every finite input sequence of N frames,
`CameraMovementDetector.detect` returns `movement_scores` and
`transformation_matrices` lists each of length N−1 (length 0 when N ≤ 1),
one entry per adjacent frame pair, regardless of how many keypoints or
descriptors any frame yields. -/
theorem C1_length_invariant (E : CVEnv) (C : DetectorConfig)
    (frames : List RawFrame) :
    (detect E C frames).movement_scores.length = frames.length - 1 ∧
    (detect E C frames).transformation_matrices.length =
      frames.length - 1 := by
  cases frames with
  | nil => exact ⟨rfl, rfl⟩
  | cons f t =>
    unfold detect
    dsimp only
    rw [show (f :: t).enum = (0, f) :: List.enumFrom 1 t from rfl,
      detectLoop_cons]
    dsimp only
    rw [detectStep_init]
    obtain ⟨hs, hm⟩ := detectLoop_lengths E C t 1
      ⟨[], [], [], some (preprocess E f,
        (E.detectAndCompute (preprocess E f)).1,
        (E.detectAndCompute (preprocess E f)).2)⟩ (le_refl 1)
    rw [hs, hm]
    simp

lemma detectLoop_scores_nonneg (E : CVEnv) (hE : SqrtNonneg E)
    (C : DetectorConfig) (ps : List (ℕ × RawFrame)) :
    ∀ st : DState, (∀ s ∈ st.movement_scores, 0 ≤ s) →
      ∀ s ∈ (detectLoop E C ps st).movement_scores, 0 ≤ s := by
  induction ps with
  | nil => intro st h; exact h
  | cons p t ih =>
    intro st h
    rw [detectLoop_cons]
    exact ih _ (detectStep_scores_nonneg E hE C st p.1 p.2 h)

/-- C6: every element of `movement_scores` returned by `detect` is ≥ 0, for
every input frame sequence (the hypothesis states the faithfulness of the
`sqrt` oracle: float `sqrt` of a nonnegative argument is nonnegative; every
scoring path — homography decomposition, degenerate median+variance, and
the three fallback signals with their fail-safe 0 branches — then only
produces nonnegative values). -/
theorem C6_nonneg (E : CVEnv) (C : DetectorConfig) (frames : List RawFrame)
    (hE : SqrtNonneg E) :
    ∀ s ∈ (detect E C frames).movement_scores, 0 ≤ s := by
  unfold detect
  dsimp only
  exact detectLoop_scores_nonneg E hE C frames.enum initState
    (by intro s hs; simp [initState] at hs)

theorem C6_nonneg_witness :
    SqrtNonneg envA ∧
    ∀ s ∈ (detect envA defaultConfig
      [RawFrame.gray [[0]], RawFrame.gray [[200]]]).movement_scores,
      0 ≤ s :=
  ⟨fun _ h => h,
    C6_nonneg envA defaultConfig
      [RawFrame.gray [[0]], RawFrame.gray [[200]]] (fun _ h => h)⟩

/-- C8 amended: `detect` performs no input validation; an empty frame
sequence is not rejected but yields the normal empty result (no scores, no
matrices, no flagged indices). -/
theorem C8_amended (E : CVEnv) (C : DetectorConfig) :
    (detect E C []).movement_indices = [] ∧
    (detect E C []).movement_scores = [] ∧
    (detect E C []).transformation_matrices = [] :=
  ⟨rfl, rfl, rfl⟩

/-- C8 as stated is false: at the concrete empty input the pipeline returns
the ordinary empty result — a normal return, not an input-validation
failure raised before processing. -/
theorem C8_counterexample :
    (detect envA defaultConfig []).movement_indices = [] ∧
    (detect envA defaultConfig []).movement_scores = [] ∧
    (detect envA defaultConfig []).transformation_matrices = [] :=
  ⟨rfl, rfl, rfl⟩

/-- C9 amended: the sparse-flow fallback returns three times the median
displacement of the successfully tracked corner points only when MORE THAN
10 corner points were detected AND more than 5 (i.e. at least 6) tracked
successfully; in every other case — no corners, at most 10 corners (even
if at least 6 of them tracked successfully), or at most 5 tracked — it
returns 0. -/
theorem C9_amended (E : CVEnv) (prev_frame curr_frame : Img) :
    (E.goodFeaturesToTrack prev_frame = none →
      calculate_optical_flow_score E prev_frame curr_frame = 0) ∧
    ∀ corners, E.goodFeaturesToTrack prev_frame = some corners →
      (corners.length ≤ 10 →
        calculate_optical_flow_score E prev_frame curr_frame = 0) ∧
      (10 < corners.length →
        ((lkGoodPairs E prev_frame curr_frame corners).length ≤ 5 →
          calculate_optical_flow_score E prev_frame curr_frame = 0) ∧
        (5 < (lkGoodPairs E prev_frame curr_frame corners).length →
          calculate_optical_flow_score E prev_frame curr_frame =
            npMedian ((lkGoodPairs E prev_frame curr_frame corners).map
              fun p => ptDist E p.1 p.2.1) * 3)) := by
  constructor
  · intro h
    unfold calculate_optical_flow_score
    rw [h]
  · intro corners hc
    unfold calculate_optical_flow_score
    rw [hc]
    dsimp only
    constructor
    · intro h10
      rw [if_neg (not_lt.mpr h10)]
    · intro h10
      rw [if_pos h10]
      constructor
      · intro h5
        rw [if_neg (not_lt.mpr h5)]
      · intro h5
        rw [if_pos h5]

theorem C9_amended_witness :
    envD12.goodFeaturesToTrack [[0]] =
      some (List.replicate 12 (⟨0, 0⟩ : Pt)) ∧
    10 < (List.replicate 12 (⟨0, 0⟩ : Pt)).length ∧
    5 < (lkGoodPairs envD12 [[0]] [[0]]
      (List.replicate 12 (⟨0, 0⟩ : Pt))).length ∧
    calculate_optical_flow_score envD12 [[0]] [[0]] =
      npMedian ((lkGoodPairs envD12 [[0]] [[0]]
        (List.replicate 12 (⟨0, 0⟩ : Pt))).map
          fun p => ptDist envD12 p.1 p.2.1) * 3 :=
  ⟨by with_unfolding_all decide, by decide,
    by with_unfolding_all decide,
    (((C9_amended envD12 [[0]] [[0]]).2
      (List.replicate 12 (⟨0, 0⟩ : Pt)) (by with_unfolding_all decide)).2
      (by decide)).2 (by with_unfolding_all decide)⟩

/-- C9 as stated is false: with 8 detected corner points, all 8 tracked
successfully (≥ 6) with displacement (3, 4), the median tracked
displacement times 3 is 75, yet the function returns 0 because the source
additionally requires more than 10 detected corners. -/
theorem C9_counterexample :
    envD.goodFeaturesToTrack [[0]] =
      some (List.replicate 8 (⟨0, 0⟩ : Pt)) ∧
    (lkGoodPairs envD [[0]] [[0]] (List.replicate 8 (⟨0, 0⟩ : Pt))).length
      = 8 ∧
    npMedian ((lkGoodPairs envD [[0]] [[0]]
      (List.replicate 8 (⟨0, 0⟩ : Pt))).map
        fun p => ptDist envD p.1 p.2.1) * 3 = 75 ∧
    calculate_optical_flow_score envD [[0]] [[0]] = 0 ∧
    (0 : ℚ) ≠ 75 := by
  with_unfolding_all decide

/-- C5 amended: for NONNEGATIVE threshold parameters (the constructor
accepts arbitrary floats; a negative `threshold_homography` breaks the
claim, see the counterexample), `movement_indices` is strictly ascending
and a subset of `{1 .. N−1}`, `movement_scores` is defined (length N−1)
and nonnegative at every transition, and every flagged index has a
strictly positive score at its corresponding transition. -/
theorem C5_amended (E : CVEnv) (C : DetectorConfig) (frames : List RawFrame)
    (hE : SqrtNonneg E) (hF : 0 ≤ C.threshold_feature)
    (hH : 0 ≤ C.threshold_homography) :
    (detect E C frames).movement_indices.Pairwise (· < ·) ∧
    (∀ i ∈ (detect E C frames).movement_indices,
      1 ≤ i ∧ i ≤ frames.length - 1) ∧
    (detect E C frames).movement_scores.length = frames.length - 1 ∧
    (∀ s ∈ (detect E C frames).movement_scores, 0 ≤ s) ∧
    (∀ i ∈ (detect E C frames).movement_indices,
      0 < (detect E C frames).movement_scores.getD (i - 1) 0) := by
  cases frames with
  | nil =>
    refine ⟨by simp [detect, detectLoop, initState], ?_, rfl, ?_, ?_⟩ <;>
      · intro i hi
        simp [detect, detectLoop, initState] at hi
  | cons f t =>
    unfold detect
    dsimp only
    rw [show (f :: t).enum = (0, f) :: List.enumFrom 1 t from rfl,
      detectLoop_cons]
    dsimp only
    rw [detectStep_init]
    have hinv0 : LoopInv 1 ⟨[], [], [], some (preprocess E f,
        (E.detectAndCompute (preprocess E f)).1,
        (E.detectAndCompute (preprocess E f)).2)⟩ := by
      constructor <;> simp
    have hinv := detectLoop_inv E hE C hF hH t 1 _ (le_refl 1) hinv0
    refine ⟨hinv.sorted, ?_, ?_, hinv.nonneg, hinv.pos⟩
    · intro i hi
      obtain ⟨h1, h2⟩ := hinv.bounds i hi
      refine ⟨h1, ?_⟩
      simp only [List.length_cons]
      omega
    · rw [hinv.slen]
      simp only [List.length_cons]
      omega

theorem C5_amended_witness :
    SqrtNonneg envA ∧ (0 : ℚ) ≤ defaultConfig.threshold_feature ∧
    (0 : ℚ) ≤ defaultConfig.threshold_homography ∧
    ((detect envA defaultConfig [RawFrame.gray [[0]],
        RawFrame.gray [[200]]]).movement_indices.Pairwise (· < ·) ∧
      (∀ i ∈ (detect envA defaultConfig [RawFrame.gray [[0]],
          RawFrame.gray [[200]]]).movement_indices,
        1 ≤ i ∧ i ≤ [RawFrame.gray [[0]],
          RawFrame.gray [[200]]].length - 1) ∧
      (detect envA defaultConfig [RawFrame.gray [[0]],
        RawFrame.gray [[200]]]).movement_scores.length =
          [RawFrame.gray [[0]], RawFrame.gray [[200]]].length - 1 ∧
      (∀ s ∈ (detect envA defaultConfig [RawFrame.gray [[0]],
        RawFrame.gray [[200]]]).movement_scores, 0 ≤ s) ∧
      (∀ i ∈ (detect envA defaultConfig [RawFrame.gray [[0]],
          RawFrame.gray [[200]]]).movement_indices,
        0 < (detect envA defaultConfig [RawFrame.gray [[0]],
          RawFrame.gray [[200]]]).movement_scores.getD (i - 1) 0)) :=
  ⟨fun _ h => h, by with_unfolding_all decide,
    by with_unfolding_all decide,
    C5_amended envA defaultConfig
      [RawFrame.gray [[0]], RawFrame.gray [[200]]] (fun _ h => h)
      (by with_unfolding_all decide) (by with_unfolding_all decide)⟩

/-- C5 as stated is false for arbitrary parameter configurations: with
`threshold_homography = −1` (the parameter is an unrestricted float) and a
degenerate homography on identical black frames, the degenerate score 0
exceeds `−1 × 0.5`, so transition 1 is flagged while its recorded score is
0 — contradicting "every index appearing in movement_indices has a
strictly positive score". -/
theorem C5_counterexample :
    1 ∈ (detect envC ⟨5, -1, 8⟩
      [RawFrame.gray [[0]], RawFrame.gray [[0]]]).movement_indices ∧
    ¬ 0 < (detect envC ⟨5, -1, 8⟩
      [RawFrame.gray [[0]], RawFrame.gray [[0]]]).movement_scores.getD
        (1 - 1) 0 := by
  with_unfolding_all decide

/-- C7: for a fixed input frame sequence, lowering `threshold_feature` and
`threshold_homography` (with `min_match_count` fixed) never yields fewer
flagged transitions. -/
theorem C7_monotone (E : CVEnv) (C C' : DetectorConfig)
    (frames : List RawFrame)
    (hmin : C'.min_match_count = C.min_match_count)
    (hF : C'.threshold_feature ≤ C.threshold_feature)
    (hH : C'.threshold_homography ≤ C.threshold_homography) :
    (detect E C frames).movement_indices.length ≤
      (detect E C' frames).movement_indices.length := by
  unfold detect
  dsimp only
  exact (detectLoop_mono E C C' hmin hF hH frames.enum initState initState
    rfl rfl rfl (le_refl _)).2.2.2

theorem C7_monotone_witness :
    (⟨4, 10, 8⟩ : DetectorConfig).min_match_count =
      defaultConfig.min_match_count ∧
    (⟨4, 10, 8⟩ : DetectorConfig).threshold_feature ≤
      defaultConfig.threshold_feature ∧
    (⟨4, 10, 8⟩ : DetectorConfig).threshold_homography ≤
      defaultConfig.threshold_homography ∧
    (detect envA defaultConfig [RawFrame.gray [[0]],
      RawFrame.gray [[200]]]).movement_indices.length ≤
    (detect envA ⟨4, 10, 8⟩ [RawFrame.gray [[0]],
      RawFrame.gray [[200]]]).movement_indices.length :=
  ⟨rfl, by with_unfolding_all decide, by with_unfolding_all decide,
    C7_monotone envA defaultConfig ⟨4, 10, 8⟩
      [RawFrame.gray [[0]], RawFrame.gray [[200]]] rfl
      (by with_unfolding_all decide) (by with_unfolding_all decide)⟩

/-- The number of good matches a transition with these two descriptor lists
produces (lines 34–39 of `detector.py`). -/
def goodCount (E : CVEnv) (pd des : List Desc) : ℕ :=
  (goodMatchesOf (sortMatches (E.bfMatch pd des))).length

/-- The matched source points of a transition (line 41 of `detector.py`). -/
def srcOf (E : CVEnv) (pk : List KeyPoint) (pd des : List Desc) : List Pt :=
  srcPts pk (goodMatchesOf (sortMatches (E.bfMatch pd des)))

/-- The matched destination points of a transition (line 42). -/
def dstOf (E : CVEnv) (kp : List KeyPoint) (pd des : List Desc) : List Pt :=
  dstPts kp (goodMatchesOf (sortMatches (E.bfMatch pd des)))

/-- C2 amended: for every transition whose good-match count is at least
`min_match_count`, for which homography estimation returns a matrix `h`,
and whose decomposition score is NONZERO (when it is exactly 0 the source
overwrites the recorded score with the fallback fusion — see C10 and the
counterexample), the recorded score equals
`‖(H02,H12)‖·1.5 + |atan2(H10,H00)|·30 + |1 − (‖(H00,H10)‖+‖(H01,H11)‖)/2|·50
+ (|H20|+|H21|)·20 + displacementVariance·0.1` (variance 0 when there are
fewer than 2 point pairs), the homography is stored, and the transition is
flagged exactly when that score exceeds `threshold_homography`. -/
theorem C2_amended (E : CVEnv) (C : DetectorConfig) (st : DState) (idx : ℕ)
    (frame : RawFrame) (pf : Img) (pk : List KeyPoint) (pd des : List Desc)
    (h : HMat)
    (hprev : st.prev = some (pf, pk, some pd))
    (hdes : (E.detectAndCompute (preprocess E frame)).2 = some des)
    (hpd : 0 < pd.length) (hd : 0 < des.length)
    (hmin : C.min_match_count ≤ goodCount E pd des)
    (hfind : E.findHomography (srcOf E pk pd des)
      (dstOf E (E.detectAndCompute (preprocess E frame)).1 pd des) = some h)
    (hs : calculate_movement_score E (some h) (srcOf E pk pd des)
      (dstOf E (E.detectAndCompute (preprocess E frame)).1 pd des) ≠ 0) :
    (detectStep E C st idx frame).movement_scores = st.movement_scores ++
      [E.sqrtF (h.h02 ^ 2 + h.h12 ^ 2) * 1.5 +
       |E.atan2F h.h10 h.h00| * 30 +
       |1 - (E.sqrtF (h.h00 ^ 2 + h.h10 ^ 2) +
         E.sqrtF (h.h01 ^ 2 + h.h11 ^ 2)) / 2| * 50 +
       (|h.h20| + |h.h21|) * 20 +
       (if 1 < (displacements E (srcOf E pk pd des)
           (dstOf E (E.detectAndCompute (preprocess E frame)).1
             pd des)).length then
         npVar (displacements E (srcOf E pk pd des)
           (dstOf E (E.detectAndCompute (preprocess E frame)).1 pd des))
        else 0) * 0.1] ∧
    (detectStep E C st idx frame).transformation_matrices =
      st.transformation_matrices ++ [some h] ∧
    ((detectStep E C st idx frame).movement_indices =
        st.movement_indices ++ [idx] ↔
      C.threshold_homography < calculate_movement_score E (some h)
        (srcOf E pk pd des)
        (dstOf E (E.detectAndCompute (preprocess E frame)).1 pd des)) := by
  rw [detectStep_transition E C st idx frame pf pk pd des hprev hdes hpd hd]
  rw [transitionScore_geo_some E C pf pk pd (preprocess E frame)
    (E.detectAndCompute (preprocess E frame)).1 des h hmin hfind hs]
  dsimp only
  refine ⟨?_, rfl, ?_⟩
  · rw [calculate_movement_score_some_eq]
    rfl
  · by_cases hlt : C.threshold_homography <
        calculate_movement_score E (some h) (srcOf E pk pd des)
          (dstOf E (E.detectAndCompute (preprocess E frame)).1 pd des)
    · unfold srcOf dstOf at hlt ⊢
      simp [hlt]
    · unfold srcOf dstOf at hlt ⊢
      simp only [if_neg (show ¬decide (C.threshold_homography <
          calculate_movement_score E (some h)
            (srcPts pk (goodMatchesOf (sortMatches (E.bfMatch pd des))))
            (dstPts (E.detectAndCompute (preprocess E frame)).1
              (goodMatchesOf (sortMatches (E.bfMatch pd des))))) = true by
        simp only [decide_eq_true_eq]; exact hlt),
        if_neg (show ¬(false = true) by simp)]
      simp only [List.append_nil]
      constructor
      · intro heq
        have := congrArg List.length heq
        simp at this
      · intro hc
        exact absurd hc hlt

/-- On the degenerate path the score is the median plus a tenth of the
variance of the displacements whenever it is nonzero (the source's guard
only forces 0 when a point list is empty, and then the score is 0). -/
lemma calculate_movement_score_none_eq (E : CVEnv) (src_pts dst_pts : List Pt)
    (hs : calculate_movement_score E none src_pts dst_pts ≠ 0) :
    calculate_movement_score E none src_pts dst_pts =
      npMedian (displacements E src_pts dst_pts) +
        npVar (displacements E src_pts dst_pts) * 0.1 := by
  unfold calculate_movement_score at hs ⊢
  dsimp only at hs ⊢
  by_cases hz : src_pts.length = 0 ∨ dst_pts.length = 0
  · rw [if_pos hz] at hs
    exact absurd rfl hs
  · rw [if_neg hz]

/-- C4 amended: for every transition with enough good matches where
homography estimation returns absent, the recorded score equals the median
of the good matches' per-pair Euclidean displacements plus 0.1 times their
variance PROVIDED that quantity is nonzero (when it is exactly 0, line 52
of the source overwrites the record with the fallback fusion — see the
counterexample), and the transition is flagged exactly when that score
exceeds `threshold_homography * 0.5`. -/
theorem C4_amended (E : CVEnv) (C : DetectorConfig) (st : DState) (idx : ℕ)
    (frame : RawFrame) (pf : Img) (pk : List KeyPoint) (pd des : List Desc)
    (hprev : st.prev = some (pf, pk, some pd))
    (hdes : (E.detectAndCompute (preprocess E frame)).2 = some des)
    (hpd : 0 < pd.length) (hd : 0 < des.length)
    (hmin : C.min_match_count ≤ goodCount E pd des)
    (hfind : E.findHomography (srcOf E pk pd des)
      (dstOf E (E.detectAndCompute (preprocess E frame)).1 pd des) = none)
    (hs : calculate_movement_score E none (srcOf E pk pd des)
      (dstOf E (E.detectAndCompute (preprocess E frame)).1 pd des) ≠ 0) :
    (detectStep E C st idx frame).movement_scores = st.movement_scores ++
      [npMedian (displacements E (srcOf E pk pd des)
        (dstOf E (E.detectAndCompute (preprocess E frame)).1 pd des)) +
       npVar (displacements E (srcOf E pk pd des)
        (dstOf E (E.detectAndCompute (preprocess E frame)).1 pd des))
        * 0.1] ∧
    (detectStep E C st idx frame).transformation_matrices =
      st.transformation_matrices ++ [none] ∧
    ((detectStep E C st idx frame).movement_indices =
        st.movement_indices ++ [idx] ↔
      C.threshold_homography * 0.5 < calculate_movement_score E none
        (srcOf E pk pd des)
        (dstOf E (E.detectAndCompute (preprocess E frame)).1 pd des)) := by
  rw [detectStep_transition E C st idx frame pf pk pd des hprev hdes hpd hd]
  rw [transitionScore_geo_none E C pf pk pd (preprocess E frame)
    (E.detectAndCompute (preprocess E frame)).1 des hmin hfind hs]
  dsimp only
  refine ⟨?_, rfl, ?_⟩
  · rw [calculate_movement_score_none_eq E
      (srcPts pk (goodMatchesOf (sortMatches (E.bfMatch pd des))))
      (dstPts (E.detectAndCompute (preprocess E frame)).1
        (goodMatchesOf (sortMatches (E.bfMatch pd des)))) (by exact hs)]
    rfl
  · by_cases hlt : C.threshold_homography * 0.5 <
        calculate_movement_score E none (srcOf E pk pd des)
          (dstOf E (E.detectAndCompute (preprocess E frame)).1 pd des)
    · unfold srcOf dstOf at hlt ⊢
      simp [hlt]
    · unfold srcOf dstOf at hlt ⊢
      simp only [if_neg (show ¬decide (C.threshold_homography * 0.5 <
          calculate_movement_score E none
            (srcPts pk (goodMatchesOf (sortMatches (E.bfMatch pd des))))
            (dstPts (E.detectAndCompute (preprocess E frame)).1
              (goodMatchesOf (sortMatches (E.bfMatch pd des))))) = true by
        simp only [decide_eq_true_eq]; exact hlt),
        if_neg (show ¬(false = true) by simp)]
      simp only [List.append_nil]
      constructor
      · intro heq
        have := congrArg List.length heq
        simp at this
      · intro hc
        exact absurd hc hlt

/-- C10: for a transition with enough good matches, a successfully
estimated homography and a decomposition score of exactly 0, the step
nevertheless computes the three fallback signals, records their maximum as
the transition's score, flags against `threshold_feature` (the geometric
comparison cannot flag once `threshold_homography` is nonnegative), while
`transformation_matrices` still stores the estimated homography — so a
present transform does not imply its recorded score came from the
homography decomposition. -/
theorem C10_zero_score_fallback (E : CVEnv) (C : DetectorConfig)
    (st : DState) (idx : ℕ) (frame : RawFrame) (pf : Img)
    (pk : List KeyPoint) (pd des : List Desc) (h : HMat)
    (hprev : st.prev = some (pf, pk, some pd))
    (hdes : (E.detectAndCompute (preprocess E frame)).2 = some des)
    (hpd : 0 < pd.length) (hd : 0 < des.length)
    (hmin : C.min_match_count ≤ goodCount E pd des)
    (hfind : E.findHomography (srcOf E pk pd des)
      (dstOf E (E.detectAndCompute (preprocess E frame)).1 pd des) = some h)
    (hs : calculate_movement_score E (some h) (srcOf E pk pd des)
      (dstOf E (E.detectAndCompute (preprocess E frame)).1 pd des) = 0)
    (hH : 0 ≤ C.threshold_homography) :
    (detectStep E C st idx frame).movement_scores = st.movement_scores ++
      [fusedFallback E pf (preprocess E frame)] ∧
    (detectStep E C st idx frame).transformation_matrices =
      st.transformation_matrices ++ [some h] ∧
    (detectStep E C st idx frame).movement_indices = st.movement_indices ++
      (if C.threshold_feature < fusedFallback E pf (preprocess E frame) then
        [idx] else []) := by
  rw [detectStep_transition E C st idx frame pf pk pd des hprev hdes hpd hd]
  rw [transitionScore_geo_some_zero E C pf pk pd (preprocess E frame)
    (E.detectAndCompute (preprocess E frame)).1 des h hmin hfind hs]
  dsimp only
  refine ⟨rfl, rfl, ?_⟩
  rw [if_neg (show ¬decide (C.threshold_homography < (0 : ℚ)) = true by
    simp only [decide_eq_true_eq]; exact not_lt.mpr hH)]
  simp only [List.append_nil]
  by_cases hlt : C.threshold_feature < fusedFallback E pf (preprocess E frame)
  · simp [hlt]
  · simp [hlt]

/-- C3 amended: the max-of-three-signals fallback is the recorded score
exactly on transitions where both descriptor lists are nonempty but the
good-match count falls below `min_match_count` (flagged iff the fused
score exceeds `threshold_feature`); when either frame's descriptor list is
EMPTY the source instead records score 0 with an absent matrix, computes
no fallback signals and never flags the transition. -/
theorem C3_amended (E : CVEnv) (C : DetectorConfig) (st : DState) (idx : ℕ)
    (frame : RawFrame) (pf : Img) (pk : List KeyPoint) (pd des : List Desc)
    (hprev : st.prev = some (pf, pk, some pd))
    (hdes : (E.detectAndCompute (preprocess E frame)).2 = some des) :
    (0 < pd.length → 0 < des.length →
      goodCount E pd des < C.min_match_count →
      (detectStep E C st idx frame).movement_scores = st.movement_scores ++
        [fusedFallback E pf (preprocess E frame)] ∧
      (detectStep E C st idx frame).transformation_matrices =
        st.transformation_matrices ++ [none] ∧
      (detectStep E C st idx frame).movement_indices =
        st.movement_indices ++
          (if C.threshold_feature <
              fusedFallback E pf (preprocess E frame) then
            [idx] else [])) ∧
    (pd.length = 0 ∨ des.length = 0 →
      (detectStep E C st idx frame).movement_scores =
        st.movement_scores ++ [0] ∧
      (detectStep E C st idx frame).transformation_matrices =
        st.transformation_matrices ++ [none] ∧
      (detectStep E C st idx frame).movement_indices =
        st.movement_indices) := by
  constructor
  · intro hpd hd hlt
    rw [detectStep_transition E C st idx frame pf pk pd des hprev hdes hpd
      hd]
    rw [transitionScore_fallback E C pf pk pd (preprocess E frame)
      (E.detectAndCompute (preprocess E frame)).1 des hlt]
    dsimp only
    refine ⟨rfl, rfl, ?_⟩
    rw [if_neg (show ¬(false = true) by simp)]
    simp only [List.append_nil]
    by_cases hflag : C.threshold_feature <
        fusedFallback E pf (preprocess E frame)
    · simp [hflag]
    · simp [hflag]
  · intro hempty
    rw [detectStep_skip E C st idx frame pf pk pd des hprev hdes hempty]
    exact ⟨rfl, rfl, rfl⟩

/-- A mid-run detector state: the previous frame `[[0]]` with one keypoint
at the origin and one descriptor. -/
def stW : DState := ⟨[], [], [], some ([[0]], [testKp], some [testDesc])⟩

/-- A mid-run detector state whose previous frame produced an EMPTY
descriptor list. -/
def stEmpty : DState := ⟨[], [], [], some ([[0]], [testKp], some ([] : List Desc))⟩

theorem C2_amended_witness :
    defaultConfig.min_match_count ≤ goodCount envE [testDesc] [testDesc] ∧
    envE.findHomography (srcOf envE [testKp] [testDesc] [testDesc])
      (dstOf envE (envE.detectAndCompute
        (preprocess envE (RawFrame.gray [[0]]))).1 [testDesc] [testDesc]) =
      some HTrans ∧
    calculate_movement_score envE (some HTrans)
      (srcOf envE [testKp] [testDesc] [testDesc])
      (dstOf envE (envE.detectAndCompute
        (preprocess envE (RawFrame.gray [[0]]))).1 [testDesc] [testDesc])
      ≠ 0 ∧
    (detectStep envE defaultConfig stW 1
        (RawFrame.gray [[0]])).transformation_matrices =
      stW.transformation_matrices ++ [some HTrans] ∧
    ((detectStep envE defaultConfig stW 1
        (RawFrame.gray [[0]])).movement_indices =
        stW.movement_indices ++ [1] ↔
      defaultConfig.threshold_homography < calculate_movement_score envE
        (some HTrans) (srcOf envE [testKp] [testDesc] [testDesc])
        (dstOf envE (envE.detectAndCompute
          (preprocess envE (RawFrame.gray [[0]]))).1 [testDesc]
          [testDesc])) :=
  ⟨by with_unfolding_all decide, by with_unfolding_all decide,
    by with_unfolding_all decide,
    (C2_amended envE defaultConfig stW 1 (RawFrame.gray [[0]]) [[0]]
      [testKp] [testDesc] [testDesc] HTrans rfl rfl (by decide) (by decide)
      (by with_unfolding_all decide) (by with_unfolding_all decide)
      (by with_unfolding_all decide)).2.1,
    (C2_amended envE defaultConfig stW 1 (RawFrame.gray [[0]]) [[0]]
      [testKp] [testDesc] [testDesc] HTrans rfl rfl (by decide) (by decide)
      (by with_unfolding_all decide) (by with_unfolding_all decide)
      (by with_unfolding_all decide)).2.2⟩

/-- C2 as stated is false: at this concrete input the good-match count is
8 ≥ `min_match_count`, the identity homography is returned and its
decomposition score is exactly 0 — yet the recorded score is 120 (the
fallback fusion, since line 52 overwrites a zero geometric score) and the
transition IS flagged although 0 does not exceed
`threshold_homography = 15`. -/
theorem C2_counterexample :
    defaultConfig.min_match_count ≤ goodCount envA [testDesc] [testDesc] ∧
    envA.findHomography (srcOf envA [testKp] [testDesc] [testDesc])
      (dstOf envA [testKp] [testDesc] [testDesc]) = some HId ∧
    calculate_movement_score envA (some HId)
      (srcOf envA [testKp] [testDesc] [testDesc])
      (dstOf envA [testKp] [testDesc] [testDesc]) = 0 ∧
    (detect envA defaultConfig
      [RawFrame.gray [[0]], RawFrame.gray [[200]]]).movement_scores =
      [120] ∧
    (detect envA defaultConfig
      [RawFrame.gray [[0]], RawFrame.gray [[200]]]).movement_indices =
      [1] ∧
    (120 : ℚ) ≠ 0 ∧ ¬(15 : ℚ) < 0 := by
  with_unfolding_all decide

theorem C4_amended_witness :
    defaultConfig.min_match_count ≤ goodCount envW [testDesc] [testDesc] ∧
    envW.findHomography (srcOf envW [testKp] [testDesc] [testDesc])
      (dstOf envW (envW.detectAndCompute
        (preprocess envW (RawFrame.gray [[1]]))).1 [testDesc] [testDesc]) =
      none ∧
    calculate_movement_score envW none
      (srcOf envW [testKp] [testDesc] [testDesc])
      (dstOf envW (envW.detectAndCompute
        (preprocess envW (RawFrame.gray [[1]]))).1 [testDesc] [testDesc])
      ≠ 0 ∧
    (detectStep envW defaultConfig stW 1
        (RawFrame.gray [[1]])).movement_scores =
      stW.movement_scores ++
        [npMedian (displacements envW
          (srcOf envW [testKp] [testDesc] [testDesc])
          (dstOf envW (envW.detectAndCompute
            (preprocess envW (RawFrame.gray [[1]]))).1 [testDesc]
            [testDesc])) +
         npVar (displacements envW
          (srcOf envW [testKp] [testDesc] [testDesc])
          (dstOf envW (envW.detectAndCompute
            (preprocess envW (RawFrame.gray [[1]]))).1 [testDesc]
            [testDesc])) * 0.1] ∧
    ((detectStep envW defaultConfig stW 1
        (RawFrame.gray [[1]])).movement_indices =
        stW.movement_indices ++ [1] ↔
      defaultConfig.threshold_homography * 0.5 <
        calculate_movement_score envW none
          (srcOf envW [testKp] [testDesc] [testDesc])
          (dstOf envW (envW.detectAndCompute
            (preprocess envW (RawFrame.gray [[1]]))).1 [testDesc]
            [testDesc])) :=
  ⟨by with_unfolding_all decide, by with_unfolding_all decide,
    by with_unfolding_all decide,
    (C4_amended envW defaultConfig stW 1 (RawFrame.gray [[1]]) [[0]]
      [testKp] [testDesc] [testDesc] rfl (by with_unfolding_all decide)
      (by decide) (by decide) (by with_unfolding_all decide)
      (by with_unfolding_all decide) (by with_unfolding_all decide)).1,
    (C4_amended envW defaultConfig stW 1 (RawFrame.gray [[1]]) [[0]]
      [testKp] [testDesc] [testDesc] rfl (by with_unfolding_all decide)
      (by decide) (by decide) (by with_unfolding_all decide)
      (by with_unfolding_all decide)
      (by with_unfolding_all decide)).2.2⟩

/-- C4 as stated is false: at this concrete input the good-match count is
8 ≥ `min_match_count` and homography estimation returns absent, but the
median-plus-variance quantity is exactly 0, so line 52 overwrites the
record with the fallback fusion: the recorded score is 120, not 0. -/
theorem C4_counterexample :
    defaultConfig.min_match_count ≤ goodCount envC [testDesc] [testDesc] ∧
    envC.findHomography (srcOf envC [testKp] [testDesc] [testDesc])
      (dstOf envC [testKp] [testDesc] [testDesc]) = none ∧
    npMedian (displacements envC (srcOf envC [testKp] [testDesc] [testDesc])
      (dstOf envC [testKp] [testDesc] [testDesc])) +
      npVar (displacements envC (srcOf envC [testKp] [testDesc] [testDesc])
        (dstOf envC [testKp] [testDesc] [testDesc])) * 0.1 = 0 ∧
    (detect envC defaultConfig
      [RawFrame.gray [[0]], RawFrame.gray [[200]]]).movement_scores =
      [120] ∧
    (120 : ℚ) ≠ 0 := by
  with_unfolding_all decide

theorem C10_zero_score_fallback_witness :
    calculate_movement_score envA (some HId)
      (srcOf envA [testKp] [testDesc] [testDesc])
      (dstOf envA (envA.detectAndCompute
        (preprocess envA (RawFrame.gray [[200]]))).1 [testDesc] [testDesc])
      = 0 ∧
    defaultConfig.min_match_count ≤ goodCount envA [testDesc] [testDesc] ∧
    ((detectStep envA defaultConfig stW 1
        (RawFrame.gray [[200]])).movement_scores =
      stW.movement_scores ++
        [fusedFallback envA [[0]]
          (preprocess envA (RawFrame.gray [[200]]))] ∧
    (detectStep envA defaultConfig stW 1
        (RawFrame.gray [[200]])).transformation_matrices =
      stW.transformation_matrices ++ [some HId] ∧
    (detectStep envA defaultConfig stW 1
        (RawFrame.gray [[200]])).movement_indices =
      stW.movement_indices ++
        (if defaultConfig.threshold_feature < fusedFallback envA [[0]]
            (preprocess envA (RawFrame.gray [[200]])) then
          [1] else [])) :=
  ⟨by with_unfolding_all decide, by with_unfolding_all decide,
    C10_zero_score_fallback envA defaultConfig stW 1
      (RawFrame.gray [[200]]) [[0]] [testKp] [testDesc] [testDesc] HId rfl
      rfl (by decide) (by decide) (by with_unfolding_all decide)
      (by with_unfolding_all decide) (by with_unfolding_all decide)
      (by with_unfolding_all decide)⟩

theorem C3_amended_witness :
    goodCount envA [testDesc] [testDesc] <
      (⟨5, 15, 9⟩ : DetectorConfig).min_match_count ∧
    ((detectStep envA ⟨5, 15, 9⟩ stW 1
        (RawFrame.gray [[200]])).movement_scores =
      stW.movement_scores ++
        [fusedFallback envA [[0]]
          (preprocess envA (RawFrame.gray [[200]]))] ∧
    (detectStep envA ⟨5, 15, 9⟩ stW 1
        (RawFrame.gray [[200]])).transformation_matrices =
      stW.transformation_matrices ++ [none] ∧
    (detectStep envA ⟨5, 15, 9⟩ stW 1
        (RawFrame.gray [[200]])).movement_indices =
      stW.movement_indices ++
        (if (⟨5, 15, 9⟩ : DetectorConfig).threshold_feature <
            fusedFallback envA [[0]]
              (preprocess envA (RawFrame.gray [[200]])) then
          [1] else [])) ∧
    ((detectStep envA defaultConfig stEmpty 1
        (RawFrame.gray [[200]])).movement_scores =
      stEmpty.movement_scores ++ [0] ∧
    (detectStep envA defaultConfig stEmpty 1
        (RawFrame.gray [[200]])).transformation_matrices =
      stEmpty.transformation_matrices ++ [none] ∧
    (detectStep envA defaultConfig stEmpty 1
        (RawFrame.gray [[200]])).movement_indices =
      stEmpty.movement_indices) :=
  ⟨by with_unfolding_all decide,
    (C3_amended envA ⟨5, 15, 9⟩ stW 1 (RawFrame.gray [[200]]) [[0]]
      [testKp] [testDesc] [testDesc] rfl rfl).1 (by decide) (by decide)
      (by with_unfolding_all decide),
    (C3_amended envA defaultConfig stEmpty 1 (RawFrame.gray [[200]]) [[0]]
      [testKp] [] [testDesc] rfl rfl).2 (Or.inl rfl)⟩

/-- C3 as stated is false: at this concrete input the first frame's
descriptor set is EMPTY, so the transition records score 0 with no flag —
whereas the max of the three fallback signals computed on the two frames
is 120 ≠ 0, which the claim says should have been recorded and flagged. -/
theorem C3_counterexample :
    (envB.detectAndCompute (preprocess envB (RawFrame.gray [[0]]))).2 =
      some ([] : List Desc) ∧
    (detect envB defaultConfig
      [RawFrame.gray [[0]], RawFrame.gray [[200]]]).movement_scores =
      [0] ∧
    (detect envB defaultConfig
      [RawFrame.gray [[0]], RawFrame.gray [[200]]]).movement_indices =
      [] ∧
    fusedFallback envB [[0]] [[200]] = 120 ∧
    (0 : ℚ) ≠ 120 := by
  with_unfolding_all decide

end CameraDetection
